import Mathlib

/-!
Verification of the orchestration layer of the AviatorScript web playground
(src/src/App.tsx): the analysis coordinator (analyzeCode), the editor change
handler (handleEditorChange) and the execution coordinator (runCode).

The external analyzer and the external execution engine are opaque
collaborators; each is modelled by its observable outcome:
  - the analyzer call returns a list of diagnostics or throws, modelled as
    an Except value passed in;
  - the engine call emits zero or more output lines through the capture
    context it is given and then either returns a value or throws, modelled
    as a list of capture events plus an Except outcome.
Every definition below is translated from App.tsx; JavaScript exceptions are
Except values, React state is passed explicitly as an AppState record, and
the two setOutput forms of the source are kept apart: the success branch
replaces the output state with the local buffer plus a result line, while
the catch branch appends to the previous output state, which at that point
is the empty list set when the run started.
-/

namespace AviatorWeb

/-- JavaScript runtime values as far as the capture context and the result
line observe them: only their String(v) rendering matters here. -/
inductive JSValue where
  | str : String → JSValue
  | num : Int → JSValue
  | boolean : Bool → JSValue
  | nullV : JSValue
  | undef : JSValue
  deriving DecidableEq, Repr

/-- Rendering String(v) of a JavaScript value, as used by the capture
functions (String(msg)) and the template literals of runCode. -/
def jsString : JSValue → String
  | .str s => s
  | .num n => toString n
  | .boolean b => if b then "true" else "false"
  | .nullV => "null"
  | .undef => "undefined"

/-- Severity constants of the Monaco editor actually used by App.tsx
(monaco.MarkerSeverity.Error and monaco.MarkerSeverity.Warning). -/
inductive MarkerSeverity where
  | error : MarkerSeverity
  | warning : MarkerSeverity
  deriving DecidableEq, Repr

/-- Diagnostic as returned by the external StaticAnalyzer: a line number, a
message and an integer severity code (App.tsx reads d.line, d.message,
d.severity). -/
structure Diagnostic where
  line : Nat
  message : String
  severity : Int
  deriving DecidableEq, Repr

/-- Editor marker, the record literal built at App.tsx lines 63 to 70. -/
structure Marker where
  startLineNumber : Nat
  startColumn : Nat
  endLineNumber : Nat
  endColumn : Nat
  message : String
  severity : MarkerSeverity
  deriving DecidableEq, Repr

/-- Translation of one diagnostic into one marker, App.tsx lines 63 to 70:
startColumn 1, endColumn the fixed constant 1000, both line fields d.line,
and severity 1 mapped to Error, every other code to Warning. -/
def diagnosticToMarker (d : Diagnostic) : Marker :=
  { startLineNumber := d.line
    startColumn := 1
    endLineNumber := d.line
    endColumn := 1000
    message := d.message
    severity := if d.severity = 1 then MarkerSeverity.error else MarkerSeverity.warning }

/-- Error object thrown by the engine; runCode reads only e.message. -/
structure JSError where
  message : String
  deriving DecidableEq, Repr

/-- The analyzeCode function of App.tsx lines 58 to 76. Its argument is the
outcome of the external analyzer call (a list of diagnostics, or the thrown
failure). The codomain is Except so that an escaping exception would be
visible to the caller: the try/catch of the source means both branches end
in Except.ok. On success the marker overlay is replaced by the translated
diagnostics; on failure the catch logs and leaves the overlay (the markers
argument) unchanged. -/
def analyzeCode (analysis : Except String (List Diagnostic))
    (markers : List Marker) : Except String (List Marker) :=
  match analysis with
  | .ok diagnostics => Except.ok (diagnostics.map diagnosticToMarker)
  | .error _ => Except.ok markers

/-- One call the engine makes into the capture context: which of the three
context functions it invoked, and with which argument. -/
inductive EngineEvent where
  | callPrint : JSValue → EngineEvent
  | callPrintln : JSValue → EngineEvent
  | callP : JSValue → EngineEvent
  deriving DecidableEq, Repr

/-- Argument carried by a capture call. -/
def engineEventArg : EngineEvent → JSValue
  | .callPrint v => v
  | .callPrintln v => v
  | .callP v => v

/-- Observable behaviour of one aviator.execute call: the capture calls it
made, in order, and then its outcome (a returned value or a thrown error). -/
structure EngineRun where
  events : List EngineEvent
  outcome : Except JSError JSValue

/-- The custom context of App.tsx lines 98 to 102: exactly three fields,
print, println and p. Each is a function of the message and of the
currentOutput buffer it pushes onto. -/
structure ExecutionContext where
  print : JSValue → List String → List String
  println : JSValue → List String → List String
  p : JSValue → List String → List String

/-- The context value built per run: all three capture functions push
String(msg) onto currentOutput. -/
def mkExecutionContext : ExecutionContext :=
  { print := fun msg currentOutput => currentOutput ++ [jsString msg]
    println := fun msg currentOutput => currentOutput ++ [jsString msg]
    p := fun msg currentOutput => currentOutput ++ [jsString msg] }

/-- Dispatch of one engine capture call to the corresponding context field. -/
def applyEngineEvent (context : ExecutionContext) (currentOutput : List String) :
    EngineEvent → List String
  | .callPrint msg => context.print msg currentOutput
  | .callPrintln msg => context.println msg currentOutput
  | .callP msg => context.p msg currentOutput

/-- Contents of the local currentOutput array after the engine has made the
given capture calls, starting from the empty array of App.tsx line 95. -/
def captureOutput (context : ExecutionContext) (events : List EngineEvent) :
    List String :=
  events.foldl (applyEngineEvent context) []

/-- React state of the App component: code, output and isRunning are the
three useState hooks; markers stands for the marker overlay held by the
Monaco model via setModelMarkers. -/
structure AppState where
  code : String
  output : List String
  isRunning : Bool
  markers : List Marker
  deriving DecidableEq, Repr

/-- The synchronous part of runCode before the timeout fires, App.tsx lines
88 and 89: setIsRunning(true) and setOutput([]). -/
def runCodeStart (s : AppState) : AppState :=
  { s with isRunning := true, output := [] }

/-- Body of the setTimeout callback of runCode, App.tsx lines 93 to 111,
run against the state left by runCodeStart. The local currentOutput buffer
is filled through the capture context. On normal return the output state is
replaced by that buffer plus the result line of line 106. In the catch the
error line of line 108 is appended to the previous output state (the prev of
the functional update), not to currentOutput, which is discarded. The
finally of line 110 clears isRunning on both paths. -/
def runCodeCallback (engine : EngineRun) (s : AppState) : AppState :=
  let context := mkExecutionContext
  let currentOutput := captureOutput context engine.events
  match engine.outcome with
  | .ok result =>
      { s with output := currentOutput ++ ["\nResult: " ++ jsString result]
               isRunning := false }
  | .error e =>
      { s with output := s.output ++ ["\nError: " ++ e.message]
               isRunning := false }

/-- One whole run: the synchronous prefix followed by the deferred callback
with the observed engine behaviour. -/
def runCode (engine : EngineRun) (s : AppState) : AppState :=
  runCodeCallback engine (runCodeStart s)

/-- The handleEditorChange function of App.tsx lines 78 to 85. The editor
change event carries string or undefined, modelled as Option String; the
analyzer collaborator maps each analyzed text to the outcome of its analyze
call; refsMounted says whether editorRef.current and monacoRef.current are
both set. Besides the new state the function returns the list of texts sent
to the analyzer during the call, so that claims about analysis being or not
being triggered are statable. Any exception escaping analyzeCode would
propagate through the Except codomain. -/
def handleEditorChange (value : Option String)
    (analyzer : String → Except String (List Diagnostic))
    (refsMounted : Bool) (s : AppState) :
    Except String (AppState × List String) :=
  match value with
  | none => Except.ok (s, [])
  | some v =>
      let s1 := { s with code := v }
      if refsMounted then do
        let newMarkers ← analyzeCode (analyzer v) s1.markers
        pure ({ s1 with markers := newMarkers }, [v])
      else Except.ok (s1, [])

/-! ## Helper lemmas -/

/-- Folding the capture context over a list of engine calls appends exactly
the String renderings of the call arguments, in call order. -/
theorem captureOutput_foldl (events : List EngineEvent) :
    ∀ acc : List String,
      events.foldl (applyEngineEvent mkExecutionContext) acc
        = acc ++ events.map (fun e => jsString (engineEventArg e)) := by
  induction events with
  | nil => intro acc; simp
  | cons e rest ih =>
      intro acc
      rw [List.foldl_cons, ih]
      cases e <;>
        simp [applyEngineEvent, mkExecutionContext, engineEventArg]

/-- The currentOutput buffer after a run is the list of String renderings of
the capture call arguments, in order. -/
theorem captureOutput_eq (events : List EngineEvent) :
    captureOutput mkExecutionContext events
      = events.map (fun e => jsString (engineEventArg e)) := by
  simpa using captureOutput_foldl events []

/-! ## Claim theorems -/

/-- C1: evaluation of the code at a failing execute call. When execute
throws an error with message "boom", the catch branch of runCode appends
the template literal of App.tsx line 108, whose first character is a
newline: the final output state is the single line "\nError: boom". The
sink therefore does not end with a line equal to "Error: boom" as the
claim states (the renderer of App.tsx line 169, which tests for the
prefix "Error:", also never matches this line). -/
theorem runCode_error_line_has_newline :
    (runCode { events := [], outcome := Except.error { message := "boom" } }
        { code := "x", output := ["stale"], isRunning := false, markers := [] }).output
      = ["\nError: boom"] := rfl

/-- C2: evaluation of the code at Scenario D. When execute throws
with message "division by zero" after emitting the single line "x = 5",
the catch branch appends to the previous output state, which the run
start has just cleared, and never reads the local currentOutput buffer:
the captured line "x = 5" is discarded and the final output state is
the single line "\nError: division by zero", not the pair
the claim states. -/
theorem runCode_scenarioD_discards_captured :
    (runCode { events := [EngineEvent.callP (JSValue.str "x = 5")],
               outcome := Except.error { message := "division by zero" } }
        { code := "", output := [], isRunning := false, markers := [] }).output
      = ["\nError: division by zero"] := rfl

/-- C3: when execute returns normally with value V after the engine made
the given capture calls, the final output state is exactly the String
renderings of the call arguments, in call order, followed by the single
result line, a newline then "Result: " then String(V). -/
theorem runCode_success_output (s : AppState) (events : List EngineEvent)
    (V : JSValue) :
    (runCode { events := events, outcome := Except.ok V } s).output
      = events.map (fun e => jsString (engineEventArg e))
          ++ ["\nResult: " ++ jsString V] := by
  simp [runCode, runCodeCallback, runCodeStart, captureOutput_eq]

/-- C4: analyzeCode never lets a failure escape to its caller: for every
analyzer outcome it returns Except.ok, and when the analyzer call throws,
the marker overlay passed in is returned unchanged. -/
theorem analyzeCode_never_raises (analysis : Except String (List Diagnostic))
    (markers : List Marker) :
    (∃ newMarkers, analyzeCode analysis markers = Except.ok newMarkers)
    ∧ ∀ e : String, analyzeCode (Except.error e) markers = Except.ok markers := by
  refine ⟨?_, fun e => rfl⟩
  cases analysis with
  | ok ds => exact ⟨ds.map diagnosticToMarker, rfl⟩
  | error e => exact ⟨markers, rfl⟩

/-- C5: a run enters the Running state at its start, and after the run
resolves the state is Idle again on every exit path, the thrown-failure
path included: the finally branch runs for both outcomes of execute. -/
theorem runCode_ends_idle (engine : EngineRun) (s : AppState) :
    (runCodeStart s).isRunning = true ∧ (runCode engine s).isRunning = false := by
  obtain ⟨events, outcome⟩ := engine
  exact ⟨rfl, by cases outcome <;> rfl⟩

/-- C6: the severity mapping is total over all integer severity codes:
code 1 yields an Error marker, every other integer yields a Warning
marker, and no marker ever carries any other severity. -/
theorem severity_mapping_total (d : Diagnostic) :
    (diagnosticToMarker d).severity
        = (if d.severity = 1 then MarkerSeverity.error else MarkerSeverity.warning)
    ∧ ((diagnosticToMarker d).severity = MarkerSeverity.error
        ∨ (diagnosticToMarker d).severity = MarkerSeverity.warning) := by
  refine ⟨rfl, ?_⟩
  by_cases h : d.severity = 1 <;> simp [diagnosticToMarker, h]

/-- C7: the marker derived from a diagnostic starts and ends on the
diagnostic line, spans column 1 to the fixed constant 1000 independent of
the line contents, and keeps the message and the mapped severity; at the
diagnostic of Scenario B the marker is the record the claim states. -/
theorem marker_translation (d : Diagnostic) :
    (diagnosticToMarker d).startLineNumber = d.line
    ∧ (diagnosticToMarker d).endLineNumber = d.line
    ∧ (diagnosticToMarker d).startColumn = 1
    ∧ (diagnosticToMarker d).endColumn = 1000
    ∧ (diagnosticToMarker d).message = d.message
    ∧ diagnosticToMarker { line := 3, message := "unexpected token", severity := 1 }
        = { startLineNumber := 3, startColumn := 1, endLineNumber := 3,
            endColumn := 1000, message := "unexpected token",
            severity := MarkerSeverity.error } :=
  ⟨rfl, rfl, rfl, rfl, rfl, by simp [diagnosticToMarker]⟩

/-- C8: the output state is the empty list immediately after the run
start, before the engine call contributes anything, and the whole run is
the deferred callback applied to that cleared state: no line of a previous
run survives into the new run. -/
theorem run_start_clears_output (engine : EngineRun) (s : AppState) :
    (runCodeStart s).output = []
    ∧ runCode engine s = runCodeCallback engine (runCodeStart s) :=
  ⟨rfl, rfl⟩

/-- C9: the execution context has exactly the three capture fields print,
println and p; the three are equal as functions, each appends the single
line String(v) to the buffer, and a whole sequence of interleaved calls
lands in the buffer in call order. -/
theorem capture_context_aliases :
    mkExecutionContext.print = mkExecutionContext.println
    ∧ mkExecutionContext.println = mkExecutionContext.p
    ∧ (∀ (v : JSValue) (currentOutput : List String),
        mkExecutionContext.p v currentOutput = currentOutput ++ [jsString v])
    ∧ ∀ events : List EngineEvent,
        captureOutput mkExecutionContext events
          = events.map (fun e => jsString (engineEventArg e)) :=
  ⟨rfl, rfl, fun _ _ => rfl, captureOutput_eq⟩

/-- C10: a change event carrying undefined leaves the whole state
unchanged and sends no text to the analyzer; a change event carrying a
defined text v (with the editor refs mounted) stores v as the document and
sends exactly v to the analyzer. -/
theorem editor_change_undefined_frame
    (analyzer : String → Except String (List Diagnostic))
    (refsMounted : Bool) (s : AppState) :
    handleEditorChange none analyzer refsMounted s = Except.ok (s, [])
    ∧ ∀ v : String, ∃ newMarkers : List Marker,
        handleEditorChange (some v) analyzer true s
          = Except.ok ({ s with code := v, markers := newMarkers }, [v]) := by
  refine ⟨rfl, fun v => ?_⟩
  cases h : analyzer v with
  | ok ds =>
      exact ⟨ds.map diagnosticToMarker, by simp [handleEditorChange, analyzeCode, h]⟩
  | error e =>
      exact ⟨s.markers, by simp [handleEditorChange, analyzeCode, h]⟩

end AviatorWeb
